import Mathlib

/-!
Shallow embedding of `ai_test_runner/cli.py` (class `AITestRunner`):
string utilities mirroring the Python primitives used by the tool,
the stub detector, the per-test source-file selection of
`create_cmake_lists`, the test-output parser and execution loop of
`run_tests`, and the discovery/pipeline flow of `find_compilable_tests`,
`run` and `main`.

Strings are modelled as `List Char` (ASCII fragment: the Python regexes
`\w` and `\s` are modelled on their ASCII subsets, and `int()` parsing on
an optional sign followed by decimal digits, which covers every string the
tool feeds them).  Python sets are modelled as lists; only membership is
ever used.  File systems are modelled as association lists from file name
to file text.
-/

set_option maxRecDepth 100000

abbrev Str := List Char

/-- ASCII fragment of Python's `\s` / `str.strip` whitespace. -/
def pyIsSpace (c : Char) : Bool :=
  c = ' ' || c = '\t' || c = '\n' || c = '\r' || c = '\x0b' || c = '\x0c'

/-- ASCII fragment of Python's regex `\w`: letters, digits, underscore. -/
def isWordChar (c : Char) : Bool := c.isAlphanum || c = '_'

/-- Python `str.strip()`: drop leading and trailing whitespace. -/
def pyStrip (l : Str) : Str :=
  ((l.dropWhile pyIsSpace).reverse.dropWhile pyIsSpace).reverse

/-- Python `str.split('\n')`: `""` splits to `[""]`. -/
def splitOnNl : Str → List Str
  | [] => [[]]
  | c :: rest =>
    if c = '\n' then [] :: splitOnNl rest
    else
      match splitOnNl rest with
      | [] => [[c]]
      | h :: t => (c :: h) :: t

/-- Boolean prefix test on character lists. -/
def startsWithB : Str → Str → Bool
  | [], _ => true
  | _ :: _, [] => false
  | a :: p, b :: l => a = b && startsWithB p l

/-- Boolean suffix test on character lists (Python `str.endswith`). -/
def endsWithB (suf l : Str) : Bool := startsWithB suf.reverse l.reverse

/-- Python's substring containment `needle in hay`. -/
def containsSub (needle : Str) : Str → Bool
  | [] => needle.isEmpty
  | c :: rest => startsWithB needle (c :: rest) || containsSub needle rest

/-- Boolean membership of a string in a list of strings (Python `in` on a set/list of names). -/
def memB (a : Str) : List Str → Bool
  | [] => false
  | b :: bs => a = b || memB a bs

/-- Python `str.replace(old, new)` (all non-overlapping occurrences, left to right);
only called with non-empty `old`.  The fuel equals the string length, which always suffices. -/
def pyReplaceAux (old new : Str) : Nat → Str → Str
  | 0, s => s
  | _ + 1, [] => []
  | fuel + 1, c :: rest =>
    if startsWithB old (c :: rest) && !old.isEmpty then
      new ++ pyReplaceAux old new fuel ((c :: rest).drop old.length)
    else
      c :: pyReplaceAux old new fuel rest

def pyReplace (old new s : Str) : Str := pyReplaceAux old new s.length s

/-!
Stub detector: `AITestRunner._find_stubbed_functions` (cli.py lines 194-210).
The regex `(\w+)\s*\([^)]*\)\s*{` is deterministic on this pattern (no
backtracking can succeed where the greedy scan fails), so a match attempt
at a position is: a non-empty maximal word run, optional whitespace, `(`,
a maximal run of non-`)` characters, `)`, optional whitespace, `{`.
`re.finditer` scans positions left to right and resumes after each match.
-/

/-- One regex match attempt at the head of the input; returns the captured
function name and the remainder after the consumed match. -/
def matchAt (l : Str) : Option (Str × Str) :=
  let run := l.takeWhile isWordChar
  if run.isEmpty then none
  else
    match (l.dropWhile isWordChar).dropWhile pyIsSpace with
    | '(' :: r3 =>
      match r3.dropWhile (fun c => !(c = ')')) with
      | ')' :: r4 =>
        match r4.dropWhile pyIsSpace with
        | '\x7b' :: r6 => some (run, r6)
        | _ => none
      | _ => none
    | _ => none

/-- The `re.finditer` scan; fuel bounds the number of scan steps and the
initial fuel (the input length) always suffices since every step consumes
at least one character. -/
def findMatchesAux : Nat → Str → List Str
  | 0, _ => []
  | _ + 1, [] => []
  | fuel + 1, c :: rest =>
    match matchAt (c :: rest) with
    | some (g, r) => g :: findMatchesAux fuel r
    | none => findMatchesAux fuel rest

def findMatches (l : Str) : List Str := findMatchesAux l.length l

/-- The name filter of `_find_stubbed_functions`:
`func_name.startswith(('test_', 'setUp', 'tearDown', 'main'))`. -/
def startsWithAnyStub (f : Str) : Bool :=
  startsWithB "test_".toList f || startsWithB "setUp".toList f ||
  startsWithB "tearDown".toList f || startsWithB "main".toList f

/-- The parsing part of `_find_stubbed_functions`, applied to a file text
that was read successfully. -/
def stubsOfContent (content : Str) : List Str :=
  (findMatches content).filter (fun f => !startsWithAnyStub f)

/-- Outcome of `open(path).read()` in the stub detector. -/
inductive ReadError where
  | fileNotFound
  | otherError
deriving DecidableEq

inductive ReadResult where
  | ok (content : Str)
  | failed (e : ReadError)
deriving DecidableEq

/-- Full `_find_stubbed_functions` including its `except FileNotFoundError: pass`
handler: the result is paired with the list of warning lines it prints
(it prints none), and an uncaught read error is an `Except.error`. -/
def findStubbedFunctionsRead : ReadResult → Except ReadError (List Str × List String)
  | .ok c => .ok (stubsOfContent c, [])
  | .failed .fileNotFound => .ok ([], [])
  | .failed .otherError => .error .otherError

/-- Warning lines printed by a stub-detector call (empty on an uncaught error). -/
def warningsOf : Except ReadError (List Str × List String) → List String
  | .ok (_, ws) => ws
  | .error _ => []

/-!
Source selection: the per-test `test_sources` computation of
`AITestRunner.create_cmake_lists` (cli.py lines 153-188).  The build
`src` directory is modelled as an association list of file names and
file texts in listing order.  Path joining `os.path.join('src', s)` is
modelled as prepending `"src/"` (the backslash-to-slash conversion is a
no-op on such names).
-/

structure SrcDir where
  entries : List (Str × Str)

/-- `source_files = [f for f in os.listdir(build/src) if f.endswith('.c')]`. -/
def sourceFilesOf (d : SrcDir) : List Str :=
  (d.entries.map Prod.fst).filter (fun n => endsWithB ".c".toList n)

/-- Text obtained by `open(build/src/name).read()`. -/
def contentOf (d : SrcDir) (n : Str) : Str :=
  ((d.entries.find? (fun p => p.1 = n)).map Prod.snd).getD []

/-- `os.path.exists(build/src/name)`. -/
def fileExists (d : SrcDir) (n : Str) : Bool :=
  d.entries.any (fun p => p.1 = n)

/-- `source_under_test = test_name.replace('test_', '') + '.c'`
(`testName` is the test file's stem, e.g. `"test_foo"`). -/
def sourceUnderTestOf (testName : Str) : Str :=
  pyReplace "test_".toList [] testName ++ ".c".toList

def srcPath : Str := "src/".toList

/-- `source_files_with_stubs`: every listed `.c` file whose text contains
some stubbed name as a substring. -/
def sourceFilesWithStubs (d : SrcDir) (stubs : List Str) : List Str :=
  (sourceFilesOf d).filter (fun s => stubs.any (fun f => containsSub f (contentOf d s)))

/-- `test_sources = [os.path.join('src', s) for s in source_files if s not in source_files_with_stubs]`. -/
def testSourcesFor (d : SrcDir) (stubs : List Str) : List Str :=
  ((sourceFilesOf d).filter (fun s => !(memB s (sourceFilesWithStubs d stubs)))).map
    (fun s => srcPath ++ s)

/-- The complete per-test source selection of `create_cmake_lists`:
stub-based exclusion followed by the unconditional re-append of the
module-under-test's source file when it exists and is not yet present. -/
def sourceSelection (d : SrcDir) (testName testContent : Str) : List Str :=
  let ts := testSourcesFor d (stubsOfContent testContent)
  let primarySource := srcPath ++ sourceUnderTestOf testName
  if !(memB primarySource ts) && fileExists d (sourceUnderTestOf testName) then
    ts ++ [primarySource]
  else
    ts

/-- All application source files as CMake paths — the "full fixed set of
application source files" of the specification. -/
def fullApplicationSet (d : SrcDir) : List Str :=
  (sourceFilesOf d).map (fun s => srcPath ++ s)

/-- Lookup in an association list keyed by strings. -/
def lookupList {α : Type} (m : List (Str × α)) (k : Str) : Option α :=
  (m.find? (fun p => p.1 = k)).map (fun p => p.2)

def iterN {α : Type} (f : α → α) : Nat → α → α
  | 0, a => a
  | n + 1, a => iterN f n (f a)

/-- Modelled from the spec: the DependencyMap collaborator (the
`DependencyAnalyzer` imported from `ai-c-test-generator`, which is not
part of this repository) maps a function name to the source file
implementing it, and `callsOf` gives the functions each file calls.  The
spec-side selection is "the source file matching the module name (if
present)" expanded "to the transitive set of files implementing functions
the module (and its dependencies) call". -/
def specDependencySelection (depMap : List (Str × Str)) (callsOf : List (Str × List Str))
    (sourceFiles : List Str) (sourceUnderTest : Str) : List Str :=
  let start := if memB sourceUnderTest sourceFiles then [sourceUnderTest] else []
  let step := fun (files : List Str) =>
    files.foldl
      (fun acc f =>
        ((lookupList callsOf f).getD []).foldl
          (fun acc2 g =>
            match lookupList depMap g with
            | some file => if memB file acc2 then acc2 else acc2 ++ [file]
            | none => acc2)
          acc)
      files
  iterN step sourceFiles.length start

/-- `AITestRunner.find_test_files` (cli.py lines 537-547): `.c` files in
`build/tests` named `test_*`, with `test_main.c` skipped; `none` models a
missing tests directory. -/
def findTestFiles : Option (List Str) → List Str
  | none => []
  | some files =>
    files.filter (fun f =>
      endsWithB ".c".toList f && startsWithB "test_".toList f &&
      !(f = "test_main.c".toList))

/-!
Result parsing and test execution: `AITestRunner.run_tests`
(cli.py lines 273-365).
-/

structure Counts where
  tests : Int
  passed : Int
  failed : Int
deriving DecidableEq

/-- Python `str.split()` with no argument: split on whitespace runs,
discarding empty tokens. -/
def words : Str → List Str
  | [] => []
  | c :: rest =>
    if pyIsSpace c then words rest
    else
      match rest, words rest with
      | [], _ => [[c]]
      | _, [] => [[c]]
      | r0 :: _, w :: ws => if pyIsSpace r0 then [c] :: w :: ws else (c :: w) :: ws

def digitsToNatAux : Nat → Str → Option Nat
  | acc, [] => some acc
  | acc, c :: rest =>
    if c.isDigit then digitsToNatAux (acc * 10 + (c.toNat - '0'.toNat)) rest
    else none

/-- Python `int(s)` restricted to an optional sign followed by decimal
digits, with surrounding whitespace allowed (every string the tool
passes to `int` is of this shape or fails in both models). -/
def pyIntOf (l : Str) : Option Int :=
  match pyStrip l with
  | '+' :: ds => if ds.isEmpty then none else (digitsToNatAux 0 ds).map Int.ofNat
  | '-' :: ds => if ds.isEmpty then none else (digitsToNatAux 0 ds).map (fun n => -(Int.ofNat n))
  | ds => if ds.isEmpty then none else (digitsToNatAux 0 ds).map Int.ofNat

/-- Does the stripped line contain the per-assertion pass marker `':PASS'`? -/
def passLine (l : Str) : Bool := containsSub ":PASS".toList (pyStrip l)

/-- Does the stripped line contain the per-assertion fail marker `':FAIL'`? -/
def failLine (l : Str) : Bool := containsSub ":FAIL".toList (pyStrip l)

/-- The summary-branch guard `line.endswith('Tests') and 'Failures' in line`
(on the stripped line). -/
def isSummaryCond (l : Str) : Bool :=
  endsWithB "Tests".toList l && containsSub "Failures".toList l

/-- The summary-branch body: `parts = line.split()`, and on
`len(parts) >= 3` the `try` block assigns `individual_tests` first, so a
`ValueError` on `parts[2]` leaves the other two counters unchanged. -/
def summaryUpdate (st : Counts) (line : Str) : Counts :=
  let parts := words line
  if 3 ≤ parts.length then
    match pyIntOf (parts.getD 0 []) with
    | none => st
    | some n =>
      match pyIntOf (parts.getD 2 []) with
      | none => ⟨n, st.passed, st.failed⟩
      | some m => ⟨n, n - m, m⟩
  else st

/-- One iteration of the `for line in result.stdout.split('\n')` loop. -/
def stepLine (st : Counts) (rawLine : Str) : Counts :=
  if passLine rawLine then ⟨st.tests + 1, st.passed + 1, st.failed⟩
  else if failLine rawLine then ⟨st.tests + 1, st.passed, st.failed + 1⟩
  else if isSummaryCond (pyStrip rawLine) then summaryUpdate st (pyStrip rawLine)
  else st

def tallyAux (st : Counts) : List Str → Counts
  | [] => st
  | l :: ls => tallyAux (stepLine st l) ls

/-- The whole stdout-parsing loop of `run_tests`. -/
def parseCounts (stdout : Str) : Counts := tallyAux ⟨0, 0, 0⟩ (splitOnNl stdout)

/-- Behaviour of one test binary when invoked: it either finishes after
`duration` time-units, or raises some other execution exception. -/
inductive ExecBehavior where
  | finishes (duration : Nat) (stdout stderr : Str) (returncode : Int)
  | raises (msg : Str)
deriving DecidableEq

/-- The fixed `timeout=30` passed to `subprocess.run`. -/
def timeoutLimit : Nat := 30

inductive ExecOutcome where
  | completed (stdout stderr : Str) (returncode : Int)
  | timedOut
  | execError (msg : Str)
deriving DecidableEq

/-- `subprocess.run([exe], timeout=30)`: a run longer than the limit
raises `TimeoutExpired`. -/
def execute : ExecBehavior → ExecOutcome
  | .finishes d out err rc => if timeoutLimit < d then .timedOut else .completed out err rc
  | .raises m => .execError m

/-- The stdout the loop body actually sees: empty in the timeout and
exception handlers. -/
def capturedStdout (b : ExecBehavior) : Str :=
  match execute b with
  | .completed out _ _ => out
  | _ => []

structure TestResult where
  name : Str
  success : Bool
  output : Str
  errors : Str
  returncode : Int
  individual_tests : Int
  individual_passed : Int
  individual_failed : Int
deriving DecidableEq

/-- The loop body of `run_tests` for one executable: the normal branch
parses the captured stdout and sets `success = (returncode == 0)`; the
`TimeoutExpired` and generic exception handlers record a failed result
with the sentinel return code `-1` and zero counts. -/
def runOne (name : Str) (b : ExecBehavior) : TestResult :=
  match execute b with
  | .completed out err rc =>
    let c := parseCounts out
    ⟨name, rc == 0, out, err, rc, c.tests, c.passed, c.failed⟩
  | .timedOut => ⟨name, false, [], "Test timed out".toList, -1, 0, 0, 0⟩
  | .execError m => ⟨name, false, [], m, -1, 0, 0, 0⟩

/-- A discovered test executable: `executable` models the
`exe.is_file() and os.access(exe, os.X_OK)` guard (a failing guard skips
the binary silently). -/
structure Binary where
  name : Str
  executable : Bool
  behavior : ExecBehavior
deriving DecidableEq

/-- The `for exe in test_executables` loop of `run_tests`: one appended
result per executable binary, in order. -/
def runTests (bs : List Binary) : List TestResult :=
  (bs.filter (fun b => b.executable)).map (fun b => runOne b.name b.behavior)

/-!
Discovery and pipeline: `find_compilable_tests` (cli.py lines 59-80),
`run` (lines 549-595) and `main` (lines 598-664).
-/

/-- Discovery inputs: the names of the files in
`tests/verification_report` (`none` when the directory does not exist)
and the names of the files in `tests/`. -/
structure DiscoveryEnv where
  verificationDir : Option (List Str)
  testFiles : List Str

/-- `self.verification_dir.glob("*compiles_yes.txt")`. -/
def globCompilesYes (names : List Str) : List Str :=
  names.filter (fun n => endsWithB "compiles_yes.txt".toList n)

/-- `Path.stem` of a glob match (the name always ends in `".txt"`). -/
def stemOf (n : Str) : Str := n.take (n.length - 4)

/-- `find_compilable_tests`: for each marker file, strip the suffix
convention and keep the corresponding test file when it exists. -/
def findCompilableTests (env : DiscoveryEnv) : List Str :=
  match env.verificationDir with
  | none => []
  | some names =>
    (globCompilesYes names).filterMap (fun n =>
      let base := pyReplace "_compiles_yes".toList [] (stemOf n)
      let testFile := base ++ ".c".toList
      if memB testFile env.testFiles then some testFile else none)

/-- Side-effecting phases of `run`, in execution order. -/
inductive Phase where
  | copyUnity
  | copySources
  | copyTests
  | createCMake
  | buildStep
  | runStep
  | reportStep
  | coverageStep
deriving DecidableEq

/-- External-world outcomes consumed by `run`: whether the CMake
configure/build pair succeeds, and the test binaries found afterwards. -/
structure World where
  buildOk : Bool
  binaries : List Binary

def sumTests (rs : List TestResult) : Int :=
  rs.foldl (fun a r => a + r.individual_tests) 0

def sumPassed (rs : List TestResult) : Int :=
  rs.foldl (fun a r => a + r.individual_passed) 0

def countSuccess (rs : List TestResult) : Nat :=
  (rs.filter (fun r => r.success)).length

/-- `AITestRunner.run`: returns the success flag and the list of phases
that were performed.  With no compilable tests it returns failure before
any build setup; a failed build stops before execution, reporting and
coverage. -/
def runPipeline (env : DiscoveryEnv) (w : World) : Bool × List Phase :=
  let tests := findCompilableTests env
  if tests.isEmpty then (false, [])
  else
    let setup := [Phase.copyUnity, Phase.copySources, Phase.copyTests, Phase.createCMake]
    if !w.buildOk then (false, setup ++ [Phase.buildStep])
    else
      let results := runTests w.binaries
      let t := sumTests results
      let ok :=
        if 0 < t then sumPassed results == t
        else countSuccess results == results.length
      (ok, setup ++ [Phase.buildStep, Phase.runStep, Phase.reportStep, Phase.coverageStep])

/-- `main`: missing required tools abort with exit code 1, otherwise the
exit code is 0 exactly when `run` returned success. -/
def mainExit (toolsPresent : Bool) (env : DiscoveryEnv) (w : World) : Nat :=
  if toolsPresent then (if (runPipeline env w).1 then 0 else 1) else 1

/-! General helper lemmas about the string primitives. -/

theorem memB_iff (a : Str) (l : List Str) : memB a l = true ↔ a ∈ l := by
  induction l with
  | nil => simp [memB]
  | cons b bs ih => simp [memB, ih]

theorem startsWithB_append (p t : Str) : startsWithB p (p ++ t) = true := by
  induction p with
  | nil => simp [startsWithB]
  | cons c cs ih => simp [startsWithB, ih]

theorem endsWithB_append (s x : Str) : endsWithB s (x ++ s) = true := by
  simp [endsWithB, List.reverse_append, startsWithB_append]

/-!
Claim C1: stub-shadowing exclusion.
-/

def primaryStubDir : SrcDir :=
  ⟨[("foo.c".toList, "int bar(void) \x7b return 0; \x7d".toList)]⟩

def primaryStubTest : Str :=
  "int bar(void) \x7b return 1; \x7d\nvoid test_x(void) \x7b \x7d".toList

/-- C1 counterexample: the test for module `foo` stubs `bar`, and `foo.c`
itself defines `bar` (the definition matcher finds `bar` in its text), yet
the computed selection still contains `src/foo.c`: after stub exclusion
drops it, `create_cmake_lists` unconditionally re-appends the module under
test's own source file, so that file is an exception to the claimed
all-or-nothing exclusion. -/
theorem stubbed_module_file_reincluded :
    "bar".toList ∈ stubsOfContent primaryStubTest ∧
    "bar".toList ∈ findMatches (contentOf primaryStubDir "foo.c".toList) ∧
    sourceSelection primaryStubDir "test_foo".toList primaryStubTest =
      ["src/foo.c".toList] := by
  refine ⟨by decide, by decide, by decide⟩

/-- C1 (amended): for every source file other than the module under
test's own file, the exclusion is indeed all-or-nothing and total: if any
stub name of the test occurs in the file's text, the file is absent from
the selection. -/
theorem stub_exclusion_total_outside_primary (d : SrcDir) (tn tc f s : Str)
    (hf : f ∈ stubsOfContent tc)
    (hs : s ∈ sourceFilesOf d)
    (hc : containsSub f (contentOf d s) = true)
    (hne : s ≠ sourceUnderTestOf tn) :
    srcPath ++ s ∉ sourceSelection d tn tc := by
  intro hmem
  have hstub : s ∈ sourceFilesWithStubs d (stubsOfContent tc) := by
    unfold sourceFilesWithStubs
    exact List.mem_filter.mpr ⟨hs, List.any_eq_true.mpr ⟨f, hf, hc⟩⟩
  have hnot : ∀ x ∈ testSourcesFor d (stubsOfContent tc), x ≠ srcPath ++ s := by
    intro x hx heq
    unfold testSourcesFor at hx
    obtain ⟨s2, hs2, hmap⟩ := List.mem_map.mp hx
    have h2 := (List.mem_filter.mp hs2).2
    have hss : s2 = s := List.append_cancel_left (hmap.trans heq)
    subst hss
    rw [(memB_iff s2 _).mpr hstub] at h2
    exact absurd h2 (by decide)
  simp only [sourceSelection] at hmem
  split at hmem
  · rcases List.mem_append.mp hmem with h | h
    · exact hnot _ h rfl
    · exact hne (List.append_cancel_left (List.mem_singleton.mp h))
  · exact hnot _ hmem rfl

def exclusionDir : SrcDir :=
  ⟨[("foo.c".toList, "int foo2(void) \x7b return 0; \x7d".toList),
    ("bar.c".toList, "int bar(void) \x7b return 0; \x7d".toList)]⟩

def exclusionTest : Str :=
  "int bar(void) \x7b return 1; \x7d\nvoid test_y(void) \x7b \x7d".toList

/-- Witness for the amended C1 theorem at a concrete input: the test for
module `foo` stubs `bar`, so `bar.c` (not the module under test) is
dropped from the selection in full. -/
theorem stub_exclusion_total_outside_primary_w :
    ("bar".toList ∈ stubsOfContent exclusionTest ∧
     "bar.c".toList ∈ sourceFilesOf exclusionDir ∧
     containsSub "bar".toList (contentOf exclusionDir "bar.c".toList) = true ∧
     "bar.c".toList ≠ sourceUnderTestOf "test_foo".toList) ∧
    srcPath ++ "bar.c".toList ∉
      sourceSelection exclusionDir "test_foo".toList exclusionTest :=
  ⟨by decide,
   stub_exclusion_total_outside_primary exclusionDir "test_foo".toList exclusionTest
     "bar".toList "bar.c".toList (by decide) (by decide) (by decide) (by decide)⟩

/-!
Claim C2: dependency-map-driven selection.
-/

def independentDir : SrcDir :=
  ⟨[("foo.c".toList, "int foo(void) \x7b return 0; \x7d".toList),
    ("unrelated.c".toList, "int zzz(void) \x7b return 9; \x7d".toList)]⟩

def noStubTest : Str := "void test_a(void) \x7b \x7d".toList

/-- C2 counterexample: for module `foo` with an empty DependencyMap the
spec-side selection is exactly `foo.c`, but the code's selection also
links `unrelated.c`: `create_cmake_lists` includes every listed source
file that survives stub exclusion and never consults the dependency
analyzer (which `AITestRunner.__init__` creates and then never uses). -/
theorem selection_ignores_dependency_map :
    specDependencySelection [] [] (sourceFilesOf independentDir)
        (sourceUnderTestOf "test_foo".toList) = ["foo.c".toList] ∧
    sourceSelection independentDir "test_foo".toList noStubTest =
      [srcPath ++ "foo.c".toList, srcPath ++ "unrelated.c".toList] ∧
    sourceSelection independentDir "test_foo".toList noStubTest ≠
      (specDependencySelection [] [] (sourceFilesOf independentDir)
        (sourceUnderTestOf "test_foo".toList)).map (fun s => srcPath ++ s) := by
  refine ⟨by decide, by decide, by decide⟩

/-- C2 (amended): the selection is independent of the DependencyMap — it contains
every listed `.c` file none of whose text contains a stubbed name,
whether or not that file is in any transitive dependency closure of the
module under test. -/
theorem all_nonstubbed_sources_included (d : SrcDir) (tn tc s : Str)
    (hs : s ∈ sourceFilesOf d)
    (hns : ∀ f ∈ stubsOfContent tc, containsSub f (contentOf d s) = false) :
    srcPath ++ s ∈ sourceSelection d tn tc := by
  have hnotstub : s ∉ sourceFilesWithStubs d (stubsOfContent tc) := by
    intro hmem
    obtain ⟨f, hf, hfc⟩ := List.any_eq_true.mp (List.mem_filter.mp hmem).2
    rw [hns f hf] at hfc
    exact absurd hfc (by decide)
  have hts : srcPath ++ s ∈ testSourcesFor d (stubsOfContent tc) := by
    unfold testSourcesFor
    refine List.mem_map.mpr ⟨s, List.mem_filter.mpr ⟨hs, ?_⟩, rfl⟩
    cases hmm : memB s (sourceFilesWithStubs d (stubsOfContent tc))
    · rfl
    · exact absurd ((memB_iff s _).mp hmm) hnotstub
  simp only [sourceSelection]
  split
  · exact List.mem_append.mpr (Or.inl hts)
  · exact hts

/-- Witness for the amended C2 theorem: `unrelated.c` contains no stubbed
name, so it is included in the selection for `test_foo` even though no
dependency links it to module `foo`. -/
theorem all_nonstubbed_sources_included_w :
    ("unrelated.c".toList ∈ sourceFilesOf independentDir ∧
     (∀ f ∈ stubsOfContent noStubTest,
        containsSub f (contentOf independentDir "unrelated.c".toList) = false)) ∧
    srcPath ++ "unrelated.c".toList ∈
      sourceSelection independentDir "test_foo".toList noStubTest :=
  ⟨⟨by decide, by decide⟩,
   all_nonstubbed_sources_included independentDir "test_foo".toList noStubTest
     "unrelated.c".toList (by decide) (by decide)⟩

/-!
Claim C3: entry-point test treatment.
-/

def entryDir : SrcDir :=
  ⟨[("main.c".toList, "int qq(void) \x7b return 0; \x7d".toList),
    ("bar.c".toList, "int bar(void) \x7b return 0; \x7d".toList)]⟩

def entryStubTest : Str :=
  "int bar(void) \x7b return 2; \x7d\nvoid test_a(void) \x7b \x7d".toList

/-- C3 counterexample: the entry-point test `test_main` stubs `bar`, and
its computed selection is `[src/main.c]`, not the full application set
`[src/main.c, src/bar.c]`: stub exclusion applies to the entry-point test
exactly as to any other test, so the claimed fixed full-set override does
not exist for every StubSet. -/
theorem entry_point_selection_not_full_set :
    sourceSelection entryDir "test_main".toList entryStubTest =
      [srcPath ++ "main.c".toList] ∧
    fullApplicationSet entryDir =
      [srcPath ++ "main.c".toList, srcPath ++ "bar.c".toList] ∧
    sourceSelection entryDir "test_main".toList entryStubTest ≠
      fullApplicationSet entryDir := by
  refine ⟨by decide, by decide, by decide⟩

theorem filter_const_false {α : Type} (l : List α) :
    l.filter (fun _ => false) = [] := by
  induction l with
  | nil => rfl
  | cons a as ih => simp [List.filter, ih]

/-- Helper for the amended C3: when the test stubs nothing, the selection
for any test equals the full application set — the module under test's
file, if it exists, already sits among the listed `.c` files, so the
re-append branch never fires. -/
theorem selection_no_stubs (d : SrcDir) (tn tc : Str)
    (h : stubsOfContent tc = []) :
    sourceSelection d tn tc = fullApplicationSet d := by
  have hws : sourceFilesWithStubs d [] = [] := by
    unfold sourceFilesWithStubs
    simp only [List.any_nil]
    exact filter_const_false (sourceFilesOf d)
  have hts : testSourcesFor d [] = fullApplicationSet d := by
    unfold testSourcesFor fullApplicationSet
    simp only [hws]
    congr 1
    refine List.filter_eq_self.mpr ?_
    intro a _
    rfl
  simp only [sourceSelection, h, hts]
  cases hex : fileExists d (sourceUnderTestOf tn)
  · simp [hex]
  · have hsut : sourceUnderTestOf tn ∈ sourceFilesOf d := by
      obtain ⟨p, hp, hpe⟩ := List.any_eq_true.mp hex
      have hpeq : p.1 = sourceUnderTestOf tn := by simpa using hpe
      unfold sourceFilesOf
      refine List.mem_filter.mpr ⟨hpeq ▸ List.mem_map.mpr ⟨p, hp, rfl⟩, ?_⟩
      unfold sourceUnderTestOf
      exact endsWithB_append ".c".toList _
    have hmemB : memB (srcPath ++ sourceUnderTestOf tn) (fullApplicationSet d) = true :=
      (memB_iff _ _).mpr (List.mem_map.mpr ⟨_, hsut, rfl⟩)
    simp [hmemB]

/-- C3 (amended): the entry-point test receives no special handling.
Its selection is computed like any other test's, so it equals the full
application set exactly in the no-stub case; and `find_test_files` (which
the main flow does not call) would skip `test_main.c` altogether rather
than link the whole application. -/
theorem entry_point_not_special :
    (∀ (d : SrcDir) (tc : Str), stubsOfContent tc = [] →
      sourceSelection d "test_main".toList tc = fullApplicationSet d) ∧
    (∀ files : List Str, "test_main.c".toList ∉ findTestFiles (some files)) := by
  refine ⟨fun d tc h => selection_no_stubs d "test_main".toList tc h, ?_⟩
  intro files hmem
  have h2 := (List.mem_filter.mp hmem).2
  exact absurd h2 (by decide)

def entryCleanTest : Str := "void test_b(void) \x7b \x7d".toList

/-- Witness for the amended C3 theorem at concrete inputs. -/
theorem entry_point_not_special_w :
    (stubsOfContent entryCleanTest = [] ∧
     sourceSelection entryDir "test_main".toList entryCleanTest =
       fullApplicationSet entryDir) ∧
    "test_main.c".toList ∉
      findTestFiles (some ["test_main.c".toList, "test_foo.c".toList]) :=
  ⟨⟨by decide, entry_point_not_special.1 entryDir entryCleanTest (by decide)⟩,
   entry_point_not_special.2 ["test_main.c".toList, "test_foo.c".toList]⟩

/-!
Claim C4: reserved names never classified as stubs.
-/

/-- C4: every name the stub detector returns is neither a test-entry
function (prefix `test_`) nor a fixture hook (`setUp`, `tearDown`) nor
the program entry point `main` — the detector filters out every matched
name starting with one of those strings. -/
theorem stub_names_exclude_reserved (c f : Str) (hf : f ∈ stubsOfContent c) :
    startsWithB "test_".toList f = false ∧
    f ≠ "setUp".toList ∧ f ≠ "tearDown".toList ∧ f ≠ "main".toList := by
  have h := (List.mem_filter.mp hf).2
  have hb : startsWithAnyStub f = false := by
    cases hx : startsWithAnyStub f
    · rfl
    · rw [hx] at h
      exact absurd h (by decide)
  unfold startsWithAnyStub at hb
  simp only [Bool.or_eq_false_iff] at hb
  obtain ⟨⟨⟨h1, h2⟩, h3⟩, h4⟩ := hb
  refine ⟨h1, ?_, ?_, ?_⟩
  · intro he
    subst he
    exact absurd h2 (by decide)
  · intro he
    subst he
    exact absurd h3 (by decide)
  · intro he
    subst he
    exact absurd h4 (by decide)

def reservedNamesTest : Str :=
  ("void setUp(void) \x7b \x7d\nvoid tearDown(void) \x7b \x7d\n" ++
   "int main(void) \x7b \x7d\nvoid test_z(void) \x7b \x7d\n" ++
   "float raw_to_celsius(int raw) \x7b return 0.0f; \x7d").toList

/-- Witness for C4 at a concrete test file that defines `setUp`,
`tearDown`, `main`, a test function and one genuine stub. -/
theorem stub_names_exclude_reserved_w :
    ("raw_to_celsius".toList ∈ stubsOfContent reservedNamesTest) ∧
    (startsWithB "test_".toList "raw_to_celsius".toList = false ∧
     "raw_to_celsius".toList ≠ "setUp".toList ∧
     "raw_to_celsius".toList ≠ "tearDown".toList ∧
     "raw_to_celsius".toList ≠ "main".toList) :=
  ⟨by decide, stub_names_exclude_reserved reservedNamesTest "raw_to_celsius".toList (by decide)⟩

/-!
Claim C5: behaviour of the stub detector on unreadable files.
-/

/-- C5 counterexample: when the test file is missing, the stub detector
used by the source selector prints no warning at all (its handler is
`except FileNotFoundError: pass`), and a read failure other than
file-not-found is not caught — it propagates to the caller. -/
theorem missing_file_no_warning_and_errors_propagate :
    warningsOf (findStubbedFunctionsRead (.failed .fileNotFound)) = [] ∧
    findStubbedFunctionsRead (.failed .otherError) = .error .otherError :=
  ⟨rfl, rfl⟩

/-- C5 (amended): a missing test file yields the empty stub set silently —
no warning, no exception — while any other read error escapes uncaught;
on a successful read the detector returns the parsed stubs, again without
warnings. -/
theorem stub_read_failure_behavior :
    findStubbedFunctionsRead (.failed .fileNotFound) = .ok ([], []) ∧
    (∀ c : Str, findStubbedFunctionsRead (.ok c) = .ok (stubsOfContent c, [])) ∧
    findStubbedFunctionsRead (.failed .otherError) = .error .otherError :=
  ⟨rfl, fun _ => rfl, rfl⟩

/-!
Claim C6: per-assertion marker tally.
-/

/-- Number of lines whose stripped text contains the pass marker. -/
def cntPass (ls : List Str) : Nat := (ls.filter passLine).length

/-- Number of lines whose stripped text contains the fail marker. -/
def cntFail (ls : List Str) : Nat := (ls.filter failLine).length

theorem tallyAux_markers (ls : List Str) : ∀ st : Counts,
    (∀ l ∈ ls, isSummaryCond (pyStrip l) = false) →
    (∀ l ∈ ls, ¬(passLine l = true ∧ failLine l = true)) →
    tallyAux st ls =
      ⟨st.tests + cntPass ls + cntFail ls,
       st.passed + cntPass ls, st.failed + cntFail ls⟩ := by
  induction ls with
  | nil =>
    intro st _ _
    simp [tallyAux, cntPass, cntFail]
  | cons l ls ih =>
    intro st h1 h2
    have h1l := h1 l (List.mem_cons_self l ls)
    have h2l := h2 l (List.mem_cons_self l ls)
    have h1r : ∀ x ∈ ls, isSummaryCond (pyStrip x) = false :=
      fun x hx => h1 x (List.mem_cons_of_mem l hx)
    have h2r : ∀ x ∈ ls, ¬(passLine x = true ∧ failLine x = true) :=
      fun x hx => h2 x (List.mem_cons_of_mem l hx)
    show tallyAux (stepLine st l) ls = _
    rw [ih (stepLine st l) h1r h2r]
    cases hp : passLine l
    · cases hf : failLine l
      · have hst : stepLine st l = st := by
          simp [stepLine, hp, hf, h1l]
        rw [hst]
        simp only [cntPass, cntFail, List.filter_cons, hp, hf]
        simp
      · have hst : stepLine st l = ⟨st.tests + 1, st.passed, st.failed + 1⟩ := by
          simp [stepLine, hp, hf]
        rw [hst]
        simp [cntPass, cntFail, List.filter_cons, hp, hf, Counts.mk.injEq]
        omega
    · have hf : failLine l = false := by
        cases hfc : failLine l
        · rfl
        · exact absurd ⟨hp, hfc⟩ h2l
      have hst : stepLine st l = ⟨st.tests + 1, st.passed + 1, st.failed⟩ := by
        simp [stepLine, hp]
      rw [hst]
      simp [cntPass, cntFail, List.filter_cons, hp, hf, Counts.mk.injEq]
      omega

/-- C6: with no summary-condition line and no line carrying both markers,
the parsed counts are exactly (pass-lines + fail-lines, pass-lines,
fail-lines), independent of line order; and the concrete scenario
`"ABC:PASS\nDEF:FAIL"` with exit code 1 yields individual_tests = 2,
individual_passed = 1, individual_failed = 1 and success = false. -/
theorem marker_tally_counts :
    (∀ out : Str,
      (∀ l ∈ splitOnNl out, isSummaryCond (pyStrip l) = false) →
      (∀ l ∈ splitOnNl out, ¬(passLine l = true ∧ failLine l = true)) →
      parseCounts out =
        ⟨(cntPass (splitOnNl out) : Int) + (cntFail (splitOnNl out) : Int),
         (cntPass (splitOnNl out) : Int), (cntFail (splitOnNl out) : Int)⟩) ∧
    runOne "t".toList (.finishes 1 "ABC:PASS\nDEF:FAIL".toList [] 1) =
      ⟨"t".toList, false, "ABC:PASS\nDEF:FAIL".toList, [], 1, 2, 1, 1⟩ := by
  constructor
  · intro out h1 h2
    unfold parseCounts
    rw [tallyAux_markers (splitOnNl out) ⟨0, 0, 0⟩ h1 h2]
    simp
  · decide

def unityMarkerOut : Str := "ABC:PASS\nDEF:FAIL".toList

/-- Witness for C6 at the concrete two-marker output. -/
theorem marker_tally_counts_w :
    ((∀ l ∈ splitOnNl unityMarkerOut, isSummaryCond (pyStrip l) = false) ∧
     (∀ l ∈ splitOnNl unityMarkerOut, ¬(passLine l = true ∧ failLine l = true))) ∧
    parseCounts unityMarkerOut = ⟨2, 1, 1⟩ := by
  refine ⟨⟨by decide, by decide⟩, ?_⟩
  rw [marker_tally_counts.1 unityMarkerOut (by decide) (by decide)]
  decide

/-!
Claim C7: the authoritative summary line.
-/

def unitySummaryOut : Str := "ABC:PASS\n5 Tests 2 Failures 0 Ignored".toList

/-- C7 (code bug): a summary line in the documented three-number format
`"<N> Tests <M> Failures ..."` can never satisfy the code's guard
`line.endswith('Tests') and 'Failures' in line` — the real format ends in
`"... Ignored"` (or at best `"Failures"`), never in `"Tests"`.  On the
concrete output below the parsed counts stay at the per-line tally
(1, 1, 0) instead of the summary's authoritative (5, 3, 2), contradicting
the code's own comment `Parse summary line like "5 Tests 0 Failures 0
Ignored"`. -/
theorem summary_line_never_overrides :
    parseCounts unitySummaryOut = ⟨1, 1, 0⟩ ∧
    isSummaryCond (pyStrip "5 Tests 2 Failures 0 Ignored".toList) = false ∧
    words "5 Tests 2 Failures 0 Ignored".toList =
      ["5".toList, "Tests".toList, "2".toList,
       "Failures".toList, "0".toList, "Ignored".toList] := by
  refine ⟨by decide, by decide, by decide⟩

/-!
Claim C8: per-binary isolation of execution failures.
-/

/-- C8: a test binary that runs past the 30-unit timeout or raises any
other execution exception yields exactly one failed TestResult with the
sentinel return code `-1` and zero counts, and the results of the binaries
before and after it are exactly what they would be on their own: the
failing binary is not retried and does not block the rest. -/
theorem failed_execution_isolated (b : Binary) (pre post : List Binary)
    (hex : b.executable = true)
    (hfail : (∃ d out err rc, b.behavior = .finishes d out err rc ∧ timeoutLimit < d) ∨
             (∃ m, b.behavior = .raises m)) :
    runTests (pre ++ b :: post) =
      runTests pre ++ runOne b.name b.behavior :: runTests post ∧
    (runOne b.name b.behavior).success = false ∧
    (runOne b.name b.behavior).returncode = -1 ∧
    (runOne b.name b.behavior).individual_tests = 0 := by
  have hout : execute b.behavior = .timedOut ∨
      ∃ m, execute b.behavior = .execError m := by
    rcases hfail with ⟨d, out, err, rc, hb, hd⟩ | ⟨m, hb⟩
    · left
      rw [hb]
      simp [execute, hd]
    · right
      refine ⟨m, ?_⟩
      rw [hb]
      rfl
  refine ⟨?_, ?_⟩
  · unfold runTests
    rw [List.filter_append, List.filter_cons]
    simp [hex]
  · rcases hout with h | ⟨m, h⟩ <;> simp [runOne, h]

def binBefore : Binary := ⟨"test_a".toList, true, .finishes 1 "A:PASS".toList [] 0⟩
def binHung : Binary := ⟨"test_b".toList, true, .finishes 31 [] [] 0⟩
def binAfter : Binary := ⟨"test_c".toList, true, .finishes 1 "C:FAIL".toList [] 1⟩

/-- Witness for C8: the middle binary exceeds the timeout; the first and
third binaries are still executed and recorded. -/
theorem failed_execution_isolated_w :
    runTests [binBefore, binHung, binAfter] =
      runTests [binBefore] ++ runOne binHung.name binHung.behavior :: runTests [binAfter] ∧
    (runOne binHung.name binHung.behavior).success = false ∧
    (runOne binHung.name binHung.behavior).returncode = -1 ∧
    (runOne binHung.name binHung.behavior).individual_tests = 0 :=
  failed_execution_isolated binHung [binBefore] [binAfter] rfl
    (Or.inl ⟨31, [], [], 0, rfl, by decide⟩)

/-!
Claim C9: empty discovery aborts the run.
-/

/-- C9: whenever discovery yields no compilable tests — in particular when
the verification directory is absent — `run` returns failure having
performed no setup or build phase at all, and `main` exits with code 1. -/
theorem no_compilable_tests_aborts (env : DiscoveryEnv) (w : World)
    (h : findCompilableTests env = []) :
    runPipeline env w = (false, []) ∧
    Phase.buildStep ∉ (runPipeline env w).2 ∧
    mainExit true env w = 1 := by
  have hr : runPipeline env w = (false, []) := by
    simp [runPipeline, h]
  refine ⟨hr, ?_, ?_⟩
  · rw [hr]
    simp
  · unfold mainExit
    rw [hr]
    rfl

def emptyEnv : DiscoveryEnv := ⟨none, []⟩
def idleWorld : World := ⟨true, []⟩

/-- Witness for C9: the verification directory does not exist. -/
theorem no_compilable_tests_aborts_w :
    findCompilableTests emptyEnv = [] ∧
    (runPipeline emptyEnv idleWorld = (false, []) ∧
     Phase.buildStep ∉ (runPipeline emptyEnv idleWorld).2 ∧
     mainExit true emptyEnv idleWorld = 1) :=
  ⟨rfl, no_compilable_tests_aborts emptyEnv idleWorld rfl⟩

/-!
Claim C10: the counts invariant.
-/

theorem tallyAux_inv (ls : List Str) : ∀ st : Counts,
    (∀ l ∈ ls, isSummaryCond (pyStrip l) = false) →
    st.tests = st.passed + st.failed →
    (tallyAux st ls).tests = (tallyAux st ls).passed + (tallyAux st ls).failed := by
  induction ls with
  | nil =>
    intro st _ h
    exact h
  | cons l ls ih =>
    intro st h1 hst
    have h1l := h1 l (List.mem_cons_self l ls)
    have h1r : ∀ x ∈ ls, isSummaryCond (pyStrip x) = false :=
      fun x hx => h1 x (List.mem_cons_of_mem l hx)
    show (tallyAux (stepLine st l) ls).tests = _
    apply ih _ h1r
    unfold stepLine
    cases hp : passLine l
    · cases hf : failLine l
      · simp [hp, hf, h1l]
        exact hst
      · simp [hp, hf]
        omega
    · simp [hp]
      omega

/-- C10: for every executed binary whose captured stdout has no line
satisfying the summary condition, the recorded result satisfies
individual_tests = individual_passed + individual_failed; the timeout and
exception branches satisfy it by recording all three counts as zero. -/
theorem counts_invariant :
    (∀ (n : Str) (b : ExecBehavior),
      (∀ l ∈ splitOnNl (capturedStdout b), isSummaryCond (pyStrip l) = false) →
      (runOne n b).individual_tests =
        (runOne n b).individual_passed + (runOne n b).individual_failed) ∧
    (∀ (n : Str) (d : Nat) (out err : Str) (rc : Int), timeoutLimit < d →
      runOne n (.finishes d out err rc) =
        ⟨n, false, [], "Test timed out".toList, -1, 0, 0, 0⟩) ∧
    (∀ n m : Str, runOne n (.raises m) = ⟨n, false, [], m, -1, 0, 0, 0⟩) := by
  refine ⟨?_, ?_, ?_⟩
  · intro n b h
    cases hb : execute b with
    | completed out err rc =>
      have hcap : capturedStdout b = out := by
        unfold capturedStdout
        rw [hb]
      rw [hcap] at h
      simp only [runOne, hb]
      exact tallyAux_inv (splitOnNl out) ⟨0, 0, 0⟩ h (by simp)
    | timedOut => simp [runOne, hb]
    | execError m => simp [runOne, hb]
  · intro n d out err rc hd
    simp [runOne, execute, hd]
  · intro n m
    rfl

/-- Witness for C10 at a concrete completed run. -/
theorem counts_invariant_w :
    (∀ l ∈ splitOnNl (capturedStdout (.finishes 1 "ABC:PASS".toList [] 0)),
      isSummaryCond (pyStrip l) = false) ∧
    (runOne "t".toList (.finishes 1 "ABC:PASS".toList [] 0)).individual_tests =
      (runOne "t".toList (.finishes 1 "ABC:PASS".toList [] 0)).individual_passed +
      (runOne "t".toList (.finishes 1 "ABC:PASS".toList [] 0)).individual_failed :=
  ⟨by decide,
   counts_invariant.1 "t".toList (.finishes 1 "ABC:PASS".toList [] 0) (by decide)⟩
